import Mathlib

/-!
Verification development for a news-search crawler (`app.py`).

The program fetches paginated news-search listing pages, extracts
(title, date, source, link) records from each page with ordered fallback
chains, deduplicates records by link, and stops on exhaustion, failure,
or a configured page bound.

Shallow embedding conventions:
* Python strings are Lean `String`s; the regular expressions of the source
  (`REL_PAT`, `DATE_PAT` and the three URL date patterns) are embedded as
  deterministic leftmost-search matchers over `List Char`, faithful to the
  greedy/backtracking behaviour of the concrete patterns.
* `datetime.now(KST)` is modelled as an explicit parameter: an `Int` counting
  wall-clock minutes in the fixed UTC+9 zone since 1970-01-01 (KST).  Dates
  are recovered with the standard civil-from-days calendar algorithm, which
  is what `strftime("%Y.%m.%d")` renders for an aware KST datetime.  Seconds
  cannot affect the rendered date because all offsets are whole minutes.
* BeautifulSoup document queries are opaque: a `Box` records the results of
  exactly the selector queries the source performs on one result container,
  and a `Doc` records the two container-selector tiers.  The HTML text
  itself stays abstract (`String`).
* The network is an environment: listing requests are a function from the
  request URL to a transport result, and the last-resort article-page date
  fetch (`_extract_date_from_article`, network I/O plus scanning of a page
  that is never available statically) is an oracle `String → String`.
* `time.sleep` / `random.uniform` only pace requests and are dropped;
  the min/max swap of the sleep range has no further observable effect.
-/

namespace App

/-- Python whitespace predicate used by `str.strip` / `str.split` / `\s`
(ASCII portion; the source never feeds non-ASCII whitespace). -/
def isPySpace (c : Char) : Bool :=
  c == ' ' || c == '\t' || c == '\n' || c == '\r' || c == '\x0b' || c == '\x0c'

/-- Python `str.strip()`. -/
def pyStrip (s : String) : String :=
  String.mk (((s.data.dropWhile isPySpace).reverse.dropWhile isPySpace).reverse)

/-- Boolean: `a` is a leading segment of `b` (character lists). -/
def leadsWith : List Char → List Char → Bool
  | [], _ => true
  | _ :: _, [] => false
  | a :: as, b :: bs => a == b && leadsWith as bs

/-- Left-to-right, non-overlapping replacement of a non-empty pattern
(fuelled by the input length so the recursion is structural; each step
consumes at least one character). -/
def replaceFuel (pat rep : List Char) : Nat → List Char → List Char
  | _, [] => []
  | 0, l => l
  | fuel + 1, c :: cs =>
    if leadsWith pat (c :: cs) then
      rep ++ replaceFuel pat rep fuel ((c :: cs).drop pat.length)
    else
      c :: replaceFuel pat rep fuel cs

/-- Python `s.replace(pat, rep)` for a non-empty `pat` (all our patterns
are non-empty; an empty pattern returns `s` unchanged). -/
def pyReplace (s pat rep : String) : String :=
  if pat.data.isEmpty then s
  else String.mk (replaceFuel pat.data rep.data s.data.length s.data)

/-- The splitting loop of Python `s.split(sep)` for a non-empty separator
(fuelled like `replaceFuel`). -/
def splitFuel (sep : List Char) : Nat → List Char → List (List Char)
  | _, [] => [[]]
  | 0, l => [l]
  | fuel + 1, c :: cs =>
    if leadsWith sep (c :: cs) then
      [] :: splitFuel sep fuel ((c :: cs).drop sep.length)
    else
      match splitFuel sep fuel cs with
      | t :: ts => (c :: t) :: ts
      | [] => [[c]]

/-- Python `s.split(sep)` for a non-empty separator: every occurrence
splits, empty fields kept. -/
def pySplitOn (s sep : String) : List String :=
  if sep.data.isEmpty then [s]
  else (splitFuel sep.data s.data.length s.data).map String.mk

/-- Tokens of Python `str.split()` (split on whitespace runs, dropping empties). -/
def wsTokens (l : List Char) : List (List Char) :=
  (l.foldr
    (fun c acc =>
      if isPySpace c then [] :: acc
      else
        match acc with
        | [] => [[c]]
        | t :: ts => (c :: t) :: ts)
    []).filter (fun t => !t.isEmpty)

/-- Source `_clean_text`: replace newlines by spaces, then
`" ".join(s.split())`. -/
def clean_text (s : String) : String :=
  let s1 := pyReplace (pyReplace s "\n" " ") "\r" " "
  String.intercalate " " ((wsTokens s1.data).map String.mk)

/-- Boolean: `needle` occurs as a contiguous segment of `hay`. -/
def hasSeg (needle : List Char) : List Char → Bool
  | [] => leadsWith needle []
  | c :: t => leadsWith needle (c :: t) || hasSeg needle t

/-- Python `needle in hay` on strings. -/
def strHasSub (hay needle : String) : Bool :=
  hasSeg needle.data hay.data

/-- Numeric value of a digit-character list, as Python `int` on a digit string. -/
def digitsToNat (ds : List Char) : Nat :=
  ds.foldl (fun a c => a * 10 + (c.toNat - '0'.toNat)) 0

/-! ### Calendar arithmetic (what `strftime("%Y.%m.%d")` renders) -/

/-- Civil date (year, month, day) of a day count since 1970-01-01
(standard proleptic-Gregorian civil-from-days algorithm). -/
def civilFromDays (z0 : Int) : Int × Int × Int :=
  let z := z0 + 719468
  let era := Int.fdiv z 146097
  let doe := z - era * 146097
  let yoe := (doe - doe / 1460 + doe / 36524 - doe / 146096) / 365
  let y := yoe + era * 400
  let doy := doe - (365 * yoe + yoe / 4 - yoe / 100)
  let mp := (5 * doy + 2) / 153
  let d := doy - (153 * mp + 2) / 5 + 1
  let m := mp + (if mp < 10 then 3 else -9)
  (y + (if m ≤ 2 then 1 else 0), m, d)

/-- Zero-padded two-digit rendering (`%m`, `%d`). -/
def pad2i (n : Int) : String :=
  if n < 10 then "0" ++ toString n else toString n

/-- Zero-padded four-digit rendering (`%Y`). -/
def pad4i (n : Int) : String :=
  if n < 10 then "000" ++ toString n
  else if n < 100 then "00" ++ toString n
  else if n < 1000 then "0" ++ toString n
  else toString n

/-- Render a civil date as `YYYY.MM.DD`. -/
def fmtYMD : Int × Int × Int → String
  | (y, m, d) => pad4i y ++ "." ++ pad2i m ++ "." ++ pad2i d

/-- Date string shown by `dt.strftime("%Y.%m.%d")` for an aware KST datetime
at `mins` wall-clock minutes since the epoch: floor to the day, then render. -/
def kstDateStr (mins : Int) : String :=
  fmtYMD (civilFromDays (Int.fdiv mins 1440))

/-! ### `REL_PAT` : `(\d+)\s*(분|시간|일)\s*전` -/

/-- Units recognised by the relative-time pattern. -/
inductive RelUnit where
  | minute
  | hour
  | day
deriving DecidableEq, Repr

/-- Minutes represented by `n` units (the `timedelta` the source subtracts). -/
def relMinutes (n : Nat) : RelUnit → Int
  | .minute => (n : Int)
  | .hour => (n : Int) * 60
  | .day => (n : Int) * 1440

/-- The source-locale token of each relative unit (the alternation
`분|시간|일` of `REL_PAT`). -/
def unitToken : RelUnit → String
  | .minute => "분"
  | .hour => "시간"
  | .day => "일"

/-- After digits and unit were consumed: `\s*` then the literal `전`. -/
def relAfterUnit (n : Nat) (u : RelUnit) (rest : List Char) : Option (Nat × RelUnit) :=
  match rest.dropWhile isPySpace with
  | '전' :: _ => some (n, u)
  | _ => none

/-- Attempt `REL_PAT` anchored at the head of `l`.  `\d+` is a maximal digit
run (no shorter run can succeed, since the following token is never a digit),
`\s*` maximal whitespace runs, and the alternation heads `분`/`시`/`일` are
distinct characters. -/
def relTryAt (l : List Char) : Option (Nat × RelUnit) :=
  let ds := l.takeWhile Char.isDigit
  if ds.isEmpty then none
  else
    let r1 := (l.dropWhile Char.isDigit).dropWhile isPySpace
    match r1 with
    | '분' :: r2 => relAfterUnit (digitsToNat ds) .minute r2
    | '시' :: '간' :: r2 => relAfterUnit (digitsToNat ds) .hour r2
    | '일' :: r2 => relAfterUnit (digitsToNat ds) .day r2
    | _ => none

/-- Leftmost search for `REL_PAT` (as `re.search`): try every start position
left to right. -/
def relSearchL : List Char → Option (Nat × RelUnit)
  | [] => none
  | c :: cs =>
    match relTryAt (c :: cs) with
    | some r => some r
    | none => relSearchL cs

/-- `REL_PAT.search` on a string, yielding (`int(m.group(1))`, unit). -/
def relSearch (s : String) : Option (Nat × RelUnit) :=
  relSearchL s.data

/-- Source `_normalize_relative_date` (leading underscore dropped): maps
`'N분/시간/일 전'`, `'어제'`, `'오늘'` to `YYYY.MM.DD` rendered in KST, and
everything else to `""`.  `nowK` is `datetime.now(KST)` in wall-clock KST
minutes. -/
def normalize_relative_date (text : String) (nowK : Int) : String :=
  let t := pyStrip text
  match relSearch t with
  | some (n, u) => kstDateStr (nowK - relMinutes n u)
  | none =>
    if strHasSub t "어제" then kstDateStr (nowK - 1440)
    else if strHasSub t "오늘" then kstDateStr nowK
    else ""

/-! ### URL-embedded dates: `_extract_date_from_url` -/

/-- Generic leftmost regex search: try `tryAt` at every suffix, left to
right (also at the empty suffix, where every pattern here fails). -/
def reSearch (tryAt : List Char → Option α) : List Char → Option α
  | [] => tryAt []
  | c :: cs =>
    match tryAt (c :: cs) with
    | some r => some r
    | none => reSearch tryAt cs

/-- Anchored attempt of `/(20\d{2})(\d{2})(\d{2})/` (groups as matched text). -/
def ymd8SlashTry : List Char → Option (String × String × String)
  | '/' :: '2' :: '0' :: a :: b :: c :: d :: e :: f :: '/' :: _ =>
    if a.isDigit && b.isDigit && c.isDigit && d.isDigit && e.isDigit && f.isDigit then
      some (String.mk ['2', '0', a, b], String.mk [c, d], String.mk [e, f])
    else none
  | _ => none

/-- `\d{1,2}` immediately followed by the literal `/`; greedy with the
backtracking of the concrete pattern (the two-digit and one-digit
alternatives are mutually exclusive because a digit is never `/`).
Returns the group value and the rest after the `/`. -/
def grab12Slash : List Char → Option (Nat × List Char)
  | a :: b :: c :: r =>
    if a.isDigit && b.isDigit && c == '/' then some (digitsToNat [a, b], r)
    else if a.isDigit && b == '/' then some (digitsToNat [a], c :: r)
    else none
  | [a, b] =>
    if a.isDigit && b == '/' then some (digitsToNat [a], []) else none
  | _ => none

/-- Anchored attempt of `/(20\d{2})/(\d{1,2})/(\d{1,2})/`
(month/day groups returned as their `int` values). -/
def ymdSlashesTry : List Char → Option (String × Nat × Nat)
  | '/' :: '2' :: '0' :: a :: b :: '/' :: rest =>
    if a.isDigit && b.isDigit then
      match grab12Slash rest with
      | some (mo, rest2) =>
        match grab12Slash rest2 with
        | some (d, _) => some (String.mk ['2', '0', a, b], mo, d)
        | none => none
      | none => none
    else none
  | _ => none

/-- Anchored attempt of `/(20\d{2})(\d{2})(\d{2})` (no trailing slash). -/
def ymd8Try : List Char → Option (String × String × String)
  | '/' :: '2' :: '0' :: a :: b :: c :: d :: e :: f :: _ =>
    if a.isDigit && b.isDigit && c.isDigit && d.isDigit && e.isDigit && f.isDigit then
      some (String.mk ['2', '0', a, b], String.mk [c, d], String.mk [e, f])
    else none
  | _ => none

/-- Zero-padded rendering of a `Nat`, as Python `f"{n:02d}"` for `n < 100`. -/
def pad2n (n : Nat) : String :=
  if n < 10 then "0" ++ toString n else toString n

/-- Source `_extract_date_from_url` (leading underscore dropped): the three
URL date shapes, tried in order; empty when none matches.  The source wraps
the body in `try/except`, but no step can raise; the embedding is total. -/
def extract_date_from_url (url : String) : String :=
  match reSearch ymd8SlashTry url.data with
  | some (y, mo, d) => y ++ "." ++ mo ++ "." ++ d
  | none =>
    match reSearch ymdSlashesTry url.data with
    | some (y, mo, d) => y ++ "." ++ pad2n mo ++ "." ++ pad2n d
    | none =>
      match reSearch ymd8Try url.data with
      | some (y, mo, d) => y ++ "." ++ mo ++ "." ++ d
      | none => ""

/-! ### `DATE_PAT` : `20\d{2}\.\d{1,2}\.\d{1,2}` (yields the matched text) -/

/-- `\d{1,2}` immediately followed by the literal `.`; same exclusive
backtracking situation as `grab12Slash`.  Returns the digit characters and
the rest after the dot. -/
def grab12Dot : List Char → Option (List Char × List Char)
  | a :: b :: c :: r =>
    if a.isDigit && b.isDigit && c == '.' then some ([a, b], r)
    else if a.isDigit && b == '.' then some ([a], c :: r)
    else none
  | [a, b] =>
    if a.isDigit && b == '.' then some ([a], []) else none
  | _ => none

/-- Trailing `\d{1,2}`: greedy, two digits if available, else one. -/
def grab12End : List Char → Option (List Char)
  | a :: b :: _ =>
    if a.isDigit && b.isDigit then some [a, b]
    else if a.isDigit then some [a] else none
  | [a] => if a.isDigit then some [a] else none
  | [] => none

/-- Anchored attempt of `DATE_PAT`, producing `m.group()` (the matched text,
exactly as the source stores it — no zero padding). -/
def datePatTry : List Char → Option String
  | '2' :: '0' :: a :: b :: '.' :: r =>
    if a.isDigit && b.isDigit then
      match grab12Dot r with
      | some (moCs, r2) =>
        match grab12End r2 with
        | some dCs =>
          some (String.mk (['2', '0', a, b, '.'] ++ moCs ++ ['.'] ++ dCs))
        | none => none
      | none => none
    else none
  | _ => none

/-- `DATE_PAT.search(t)` returning the matched text. -/
def datePatSearch (s : String) : Option String :=
  reSearch datePatTry s.data

/-! ### Document model

BeautifulSoup queries are opaque: a `Box` stores the result of exactly the
selector queries the source performs on one result container (`box`), and a
`Doc` stores the two container tiers `parse_page` selects between. -/

/-- An anchor element: its rendered text and its `href` attribute
(`get("href", "")`: a missing attribute is the empty string). -/
structure Anchor where
  text : String
  href : String
deriving DecidableEq, Repr

/-- Result of `box.select_one("a:has(> HEADLINE_SEL)")`: the anchor's
headline child (`a.select_one(HEADLINE_SEL)`, text already rendered with
`get_text(" ", strip=True)`) and the anchor's `href`. -/
structure AnchorH where
  spanText : Option String
  href : String
deriving DecidableEq, Repr

/-- A `time` element: its `datetime` attribute and its rendered text. -/
structure TimeTag where
  datetimeAttr : Option String
  text : String
deriving DecidableEq, Repr

/-- One result container, as the tuple of the DOM-query results the source
reads from it.  Field ↔ query:
* `selHeadline` — `box.select_one(HEADLINE_SEL)` text (`get_text(" ", strip=True)`)
* `selAHasHeadline` — `box.select_one("a:has(> HEADLINE_SEL)")`
* `selNewsTitA` — `box.select_one("a.news_tit")`
* `findNewsTitA` — `box.find("a", class_=re.compile("news_tit"))`
* `anchors` — `box.find_all("a")` (so `box.find("a")` is its head)
* `pressSel` — `box.select_one(PRESS_SEL)` text (`get_text(strip=True)`)
* `aInfoPress` — `box.select_one("a.info.press")` text
* `aInfoGroupA` — `box.select_one("div.info_group > a.info")` text
* `classKeywordElem` — `box.find(class_=re.compile(r"(press|source|profile-info-title)", re.I))` text
* `infoSpans` — texts of `box.select("div.info_group > span.info")`
* `sdsSpans` — texts of `box.select("span.sds-comps-text.sds-comps-text-type-body2.sds-comps-text-weight-sm")`
* `timeTag` — `box.find("time")` -/
structure Box where
  selHeadline : Option String
  selAHasHeadline : Option AnchorH
  selNewsTitA : Option Anchor
  findNewsTitA : Option Anchor
  anchors : List Anchor
  pressSel : Option String
  aInfoPress : Option String
  aInfoGroupA : Option String
  classKeywordElem : Option String
  infoSpans : List String
  sdsSpans : List String
  timeTag : Option TimeTag
deriving DecidableEq, Repr

/-- One listing page document: the containers found by the primary selector
`ul.list_news > li.bx` and by the secondary selector set
`div.news_area, div.sds-comps-base-layout, div.sds-comps-vertical-layout`. -/
structure Doc where
  listNewsBoxes : List Box
  sdsBoxes : List Box
deriving DecidableEq, Repr

/-- Environment of the extractor:
* `nowK` — `datetime.now(KST)` in wall-clock KST minutes since the epoch;
* `isoToKst` — `datetime.fromisoformat(s.replace("Z", "+00:00"))` followed by
  `.astimezone(KST)`, as the resulting civil date; `none` models the
  `ValueError` the source catches (standard-library parser, uninterpreted);
* `articleDate` — `_extract_date_from_article(link)`: the last-resort date
  scan of the fetched article page.  It performs network I/O
  (`session.get`) and scans a document that exists only at crawl time, so
  it is modelled as an oracle; no claim depends on its internals, only on
  where its result is used. -/
structure ParseEnv where
  nowK : Int
  isoToKst : String → Option (Int × Int × Int)
  articleDate : String → String

/-- Step 4 of the title chain: first anchor whose cleaned text contains the
keyword `여의시스템` and is longer than 10 characters. -/
def titleFromAnchors : List Anchor → String
  | [] => ""
  | x :: xs =>
    let txt := clean_text x.text
    if strHasSub txt "여의시스템" ∧ 10 < txt.length then txt
    else titleFromAnchors xs

/-- Steps 3–4 of the title chain: `a.news_tit` (or the class-matched
fallback), else the keyword anchor scan. -/
def titleSteps34 (box : Box) : String :=
  match box.selNewsTitA with
  | some a => clean_text a.text
  | none =>
    match box.findNewsTitA with
    | some a => clean_text a.text
    | none => titleFromAnchors box.anchors

/-- Source `_extract_title_from_card` (leading underscore dropped).  Note
that steps 1 and 3 return their cleaned text even when it is empty, exactly
as the source does; only a missing element falls through. -/
def extract_title_from_card (box : Box) : String :=
  match box.selHeadline with
  | some t => clean_text t
  | none =>
    match box.selAHasHeadline with
    | some a =>
      match a.spanText with
      | some t => clean_text t
      | none => titleSteps34 box
    | none => titleSteps34 box

/-- Scheme characters accepted by `urllib.parse` after the leading letter. -/
def isSchemeChar (c : Char) : Bool :=
  c.isAlphanum || c == '+' || c == '-' || c == '.'

/-- `urllib.parse.urlparse(url).netloc` (standard library): strip a valid
`scheme:`, then, only if `//` follows, the authority up to `/`, `?` or `#`. -/
def netlocOf (url : String) : String :=
  let cs := url.data
  let pre := cs.takeWhile (fun c => c != ':')
  let isScheme :=
    pre.length < cs.length &&
      (match pre with
       | c :: _ => c.isAlpha && pre.all isSchemeChar
       | [] => false)
  let rest := if isScheme then cs.drop (pre.length + 1) else cs
  match rest with
  | '/' :: '/' :: r =>
    String.mk (r.takeWhile (fun c => c != '/' && c != '?' && c != '#'))
  | _ => ""

/-- Last-resort source label: the link's domain, `www.` occurrences removed,
first dot-segment only (`urlparse(link).netloc.replace("www.","")`,
`domain.split(".")[0]`). -/
def sourceDomain (link : String) : String :=
  if link ≠ "" then
    let domain := pyReplace (netlocOf link) "www." ""
    if domain ≠ "" then ((pySplitOn domain ".").headD "") else ""
  else ""

/-- Source `_extract_source_from_card` (leading underscore dropped):
publisher element, legacy publisher element, class-keyword element of text
length ≤ 30, then the link's domain. -/
def extract_source_from_card (box : Box) (link : String) : String :=
  let step4 := sourceDomain link
  let step3 :=
    match box.classKeywordElem with
    | some t =>
      let src := clean_text t
      if src ≠ "" ∧ src.length ≤ 30 then src else step4
    | none => step4
  let step2 :=
    let apress :=
      match box.aInfoPress with
      | some t => some t
      | none => box.aInfoGroupA
    match apress with
    | some t =>
      let src := clean_text t
      if src ≠ "" then src else step3
    | none => step3
  match box.pressSel with
  | some t =>
    let src := clean_text t
    if src ≠ "" then src else step2
  | none => step2

/-- Date sub-chain over a span list: first span whose cleaned text contains
an absolute `DATE_PAT` date (the matched text) or a recognisable relative
phrase. -/
def dateFromSpans (env : ParseEnv) : List String → String
  | [] => ""
  | sp :: rest =>
    let t := clean_text sp
    match datePatSearch t with
    | some m => m
    | none =>
      let rel := normalize_relative_date t env.nowK
      if rel ≠ "" then rel else dateFromSpans env rest

/-- Date step (c): the `time` element — ISO `datetime` attribute converted
to KST, else its visible text through the absolute/relative matching. -/
def dateFromTime (env : ParseEnv) (tt : TimeTag) : String :=
  let d1 :=
    match tt.datetimeAttr with
    | some attr =>
      match env.isoToKst attr with
      | some ymd => fmtYMD ymd
      | none => ""
    | none => ""
  if d1 ≠ "" then d1
  else
    let t := clean_text tt.text
    match datePatSearch t with
    | some m => m
    | none => normalize_relative_date t env.nowK

/-- Link resolution of `parse_page`: the anchor wrapping a headline span,
else `a.news_tit` (or its class-matched fallback), else the first anchor;
`none` when the container has no anchor at all. -/
def linkHrefOf (box : Box) : Option String :=
  match box.selAHasHeadline with
  | some a => some a.href
  | none =>
    match box.selNewsTitA with
    | some a => some a.href
    | none =>
      match box.findNewsTitA with
      | some a => some a.href
      | none =>
        match box.anchors with
        | a :: _ => some a.href
        | [] => none

/-- One extracted record (the dict appended to `rows`). -/
structure Row where
  Title : String
  Date : String
  Source : String
  Link : String
deriving DecidableEq, Repr

/-- The per-container body of the `parse_page` loop: `none` exactly where
the source says `continue` (no title, no anchor, empty link), otherwise the
record built from the title, date chain, source chain and link. -/
def rowOfBox (env : ParseEnv) (box : Box) : Option Row :=
  let title := extract_title_from_card box
  if title = "" then none
  else
    match linkHrefOf box with
    | none => none
    | some href =>
      let link := pyStrip href
      if link = "" then none
      else
        let source := extract_source_from_card box link
        let d1 := dateFromSpans env box.infoSpans
        let d2 := if d1 = "" then dateFromSpans env box.sdsSpans else d1
        let d3 :=
          if d2 = "" then
            match box.timeTag with
            | some tt => dateFromTime env tt
            | none => ""
          else d2
        let d4 := if d3 = "" ∧ link ≠ "" then extract_date_from_url link else d3
        let d5 := if d4 = "" ∧ link ≠ "" then env.articleDate link else d4
        some ⟨title, d5, source, link⟩

/-- Source `parse_page`: primary container tier, else the secondary tier;
per container, the loop body above in order. -/
def parse_page (env : ParseEnv) (doc : Doc) : List Row :=
  let boxes := if doc.listNewsBoxes.isEmpty then doc.sdsBoxes else doc.listNewsBoxes
  boxes.filterMap (rowOfBox env)

/-! ### Pagination driver: `crawl`

The transport (`session.get` on the listing URL) is a function from the
request URL to a result; `parse_page` applied to the response body is a
function `String → List Row` (in the full program it is the composition of
BeautifulSoup — `String → Doc` — with `parse_page` above).  The state
carries, besides the source's mutable locals, the externally observable
request log and the diagnostic-file content. -/

/-- Result of one `session.get` on a listing URL: a raised
`requests.RequestException`, or a response with status code and body. -/
inductive FetchResult where
  | exn (msg : String)
  | resp (status : Nat) (text : String)
deriving DecidableEq, Repr

/-- The immutable query configuration of one `crawl` call.  `encoded_term`
is `quote_plus(search_term)` (standard-library URL encoding, supplied
already encoded). -/
structure CrawlCfg where
  encoded_term : String
  start_date : String
  end_date : String
  sort_value : Nat
  max_pages : Nat
deriving DecidableEq, Repr

/-- Source `build_url`: the news-search listing URL. -/
def build_url (encoded_query : String) (sort_value : Nat) (start_date end_date nso_period : String) (start : Nat) : String :=
  "https://search.naver.com/search.naver?" ++
    s!"where=news&sm=tab_pge&sort={sort_value}&photo=0&field=0" ++
    s!"&query={encoded_query}" ++
    "&pd=3" ++
    s!"&ds={start_date}&de={end_date}" ++
    "&nso=so%3Ar%2Cp%3A" ++ nso_period ++
    s!"&start={start}"

/-- `nso_period`: `f"from{start_date.replace('.','')}to{end_date.replace('.','')}"`. -/
def nso_period (cfg : CrawlCfg) : String :=
  "from" ++ pyReplace cfg.start_date "." "" ++ "to" ++ pyReplace cfg.end_date "." ""

/-- The listing URL of the page at offset `start` (the only URL component
that varies within one crawl). -/
def urlAt (cfg : CrawlCfg) (start : Nat) : String :=
  build_url cfg.encoded_term cfg.sort_value cfg.start_date cfg.end_date (nso_period cfg) start

/-- Mutable state of the `crawl` loop, plus the observable effect log:
`requests` lists the issued listing-request URLs in order, `debugFile` is
the current content of `debug_naver.html` (overwritten on each write), and
`logs` collects the lines passed to the injected `log` callable. -/
structure CrawlState where
  titles : List String
  dates : List String
  sources : List String
  links : List String
  seen : List String
  start : Nat
  pageCount : Nat
  requests : List String
  debugFile : Option String
  logs : List String
deriving DecidableEq, Repr

/-- Initial crawl state: empty accumulators, offset 1, page counter 0. -/
def initState : CrawlState :=
  ⟨[], [], [], [], [], 1, 0, [], none, []⟩

/-- Log line `f"[요청] {url}"`. -/
def reqLog (url : String) : String := s!"[요청] {url}"

/-- Log line for a non-200 response. -/
def failLog (status start : Nat) : String := s!"요청 실패(status={status}) start={start}"

/-- Log line for a raised transport exception. -/
def exnLog (msg : String) : String := s!"요청 예외: {msg}"

/-- Log line for a page with zero extracted containers. -/
def noRowsLog (start : Nat) : String := s!"페이지 start={start} 기사 없음. debug_naver.html 확인"

/-- Per-page result log line. -/
def pageLog (start total newCnt : Nat) : String :=
  s!"페이지(start={start}) 수집 {total}건 / 신규 {newCnt}건"

/-- Log line of the zero-new-records early stop. -/
def earlyStopLog : String := "신규 항목 없음 → 조기 종료"

/-- Log line of the safety stop on the page bound. -/
def safetyLog (maxPages : Nat) : String := s!"안전 종료: max_pages({maxPages}) 초과"

/-- The per-row admission loop of `crawl`: skip a row whose link is empty or
already seen, otherwise record the link as seen, append the four fields to
the four parallel accumulators, and count it as new. -/
def admitRows (rows : List Row) (s : CrawlState) (newCnt : Nat) : CrawlState × Nat :=
  match rows with
  | [] => (s, newCnt)
  | r :: rest =>
    if r.Link = "" ∨ r.Link ∈ s.seen then admitRows rest s newCnt
    else
      admitRows rest
        { s with
          seen := r.Link :: s.seen
          titles := s.titles ++ [r.Title]
          dates := s.dates ++ [r.Date]
          sources := s.sources ++ [r.Source]
          links := s.links ++ [r.Link] }
        (newCnt + 1)

/-- One page attempt after the request was issued (`s1` already has the
incremented page counter and the recorded request; `start` is the offset the
request used).  Returns the updated state and whether the loop continues:
`false` on a transport exception, a non-200 status, zero extracted
containers (with the diagnostic write), or zero newly admitted records.
The randomized inter-page sleep is timing-only and dropped. -/
def crawlIter (fetch : String → FetchResult) (parse : String → List Row) (cfg : CrawlCfg) (s1 : CrawlState) (start : Nat) : CrawlState × Bool :=
  match fetch (urlAt cfg start) with
  | .exn msg => ({ s1 with logs := s1.logs ++ [exnLog msg] }, false)
  | .resp status text =>
    if status ≠ 200 then ({ s1 with logs := s1.logs ++ [failLog status start] }, false)
    else
      let rows := parse text
      if rows.isEmpty then
        ({ s1 with debugFile := some text, logs := s1.logs ++ [noRowsLog start] }, false)
      else
        let pr := admitRows rows s1 0
        let s3 := { pr.1 with
          logs := pr.1.logs ++ [pageLog start rows.length pr.2]
          start := pr.1.start + 10 }
        if pr.2 = 0 then ({ s3 with logs := s3.logs ++ [earlyStopLog] }, false)
        else (s3, true)

/-- The request-issuing prefix of one loop iteration: page counter
incremented, request logged and recorded (the state the source reaches just
after `session.get` is called). -/
def reqState (cfg : CrawlCfg) (s : CrawlState) : CrawlState :=
  { s with
    pageCount := s.pageCount + 1
    logs := s.logs ++ [reqLog (urlAt cfg s.start)]
    requests := s.requests ++ [urlAt cfg s.start] }

/-- The `while True` loop of `crawl`.  Fuel only bounds the recursion depth:
the loop's own safety check (`page_count > max_pages`, tested before the
request is issued) fires on iteration `max_pages + 1` at the latest, so with
initial fuel `max_pages + 1` the zero-fuel base case is unreachable. -/
def crawlLoop (fetch : String → FetchResult) (parse : String → List Row) (cfg : CrawlCfg) : Nat → CrawlState → CrawlState
  | 0, s => s
  | fuel + 1, s =>
    if s.pageCount + 1 > cfg.max_pages then
      { s with pageCount := s.pageCount + 1, logs := s.logs ++ [safetyLog cfg.max_pages] }
    else
      match crawlIter fetch parse cfg (reqState cfg s) s.start with
      | (s2, true) => crawlLoop fetch parse cfg fuel s2
      | (s2, false) => s2

/-- Source `crawl`: run the loop from the initial state.  The function's
Python return value is the 4-tuple `(titles, dates, sources, links)` of the
final state. -/
def crawl (fetch : String → FetchResult) (parse : String → List Row) (cfg : CrawlCfg) : CrawlState :=
  crawlLoop fetch parse cfg (cfg.max_pages + 1) initState

/-! ### Streamlit boundary: `streamlit_main` -/

/-- A Python `datetime.date` value. -/
structure PyDate where
  year : Nat
  month : Nat
  day : Nat
deriving DecidableEq, Repr

/-- Python `date` comparison `a < b` (lexicographic on year, month, day). -/
def pyDateLt (a b : PyDate) : Bool :=
  decide (a.year < b.year) ||
    (decide (a.year = b.year) &&
      (decide (a.month < b.month) ||
        (decide (a.month = b.month) && decide (a.day < b.day))))

/-- `date.strftime("%Y.%m.%d")` (`DATE_FORMAT`). -/
def fmtPyDate (d : PyDate) : String :=
  pad4i (d.year : Int) ++ "." ++ pad2i (d.month : Int) ++ "." ++ pad2i (d.day : Int)

/-- The submitted form values of `streamlit_main` (`search_term` already
URL-encoded as in `CrawlCfg`; `sort_value` is the looked-up sort code and
`max_pages` the widget's integer value). -/
structure FormInput where
  encoded_term : String
  start_date : PyDate
  end_date : PyDate
  sort_value : Nat
  max_pages : Nat
  submitted : Bool
deriving DecidableEq, Repr

/-- Outcome of one `streamlit_main` run: the form was not submitted, the
date range was rejected (`st.error`, return before any crawling), or the
crawl ran to a final state. -/
inductive StreamlitOutcome where
  | notSubmitted
  | configError
  | ran (final : CrawlState)
deriving DecidableEq, Repr

/-- Source `streamlit_main`, from form submission onward: reject an
unsubmitted form, reject `start_date_input > end_date_input` before calling
`crawl`, otherwise crawl with the formatted dates.  Rendering and export
below the crawl call do not affect the outcome. -/
def streamlit_main (fetch : String → FetchResult) (parse : String → List Row) (fi : FormInput) : StreamlitOutcome :=
  if ¬ fi.submitted then .notSubmitted
  else if pyDateLt fi.end_date fi.start_date then .configError
  else
    .ran (crawl fetch parse
      { encoded_term := fi.encoded_term
        start_date := fmtPyDate fi.start_date
        end_date := fmtPyDate fi.end_date
        sort_value := fi.sort_value
        max_pages := fi.max_pages })

/-- The listing requests a `streamlit_main` run issued. -/
def outcomeRequests : StreamlitOutcome → List String
  | .ran s => s.requests
  | _ => []

/-! ### Concrete fixtures used by witness theorems -/

/-- A concrete record fixture with the given link. -/
def wRow (l : String) : Row := ⟨"title-" ++ l, "2024.01.02", "src", l⟩

/-- A concrete query configuration fixture. -/
def wCfg : CrawlCfg := ⟨"q", "2024.01.01", "2024.12.31", 2, 5⟩

/-- Transport fixture: every listing request succeeds with body `"body"`. -/
def wFetchOk : String → FetchResult := fun _ => .resp 200 "body"

/-- Transport fixture: every listing request raises. -/
def wFetchExn : String → FetchResult := fun _ => .exn "boom"

/-- Transport fixture: every listing request returns status 500. -/
def wFetch500 : String → FetchResult := fun _ => .resp 500 "x"

/-- Extraction fixture: every page yields the single link `L1`. -/
def wParseDup : String → List Row := fun _ => [wRow "L1"]

/-- Extraction fixture: every page yields zero containers. -/
def wParseEmpty : String → List Row := fun _ => []

/-- A crawl state that has already seen link `L1`. -/
def wStateSeen : CrawlState := ⟨[], [], [], [], ["L1"], 1, 0, [], none, []⟩

/-- A crawl state whose diagnostic file already has content (for the
overwrite-not-append check). -/
def wStateOld : CrawlState :=
  ⟨[], [], [], [], [], 1, 0, [], some "old", []⟩

/-- Extractor environment fixture (`now` = 2024-03-07 12:00 KST; the ISO
parser and the article-page oracle return nothing). -/
def wEnv : ParseEnv := ⟨28496880, fun _ => none, fun _ => ""⟩

/-- A fully extractable container fixture. -/
def wBoxGood : Box :=
  { selHeadline := some " Naver  여의시스템 보도 "
    selAHasHeadline := some ⟨some "ignored", " http://www.example.com/news/20240307x "⟩
    selNewsTitA := none
    findNewsTitA := none
    anchors := []
    pressSel := some "Press"
    aInfoPress := none
    aInfoGroupA := none
    classKeywordElem := none
    infoSpans := ["2024.3.7."]
    sdsSpans := []
    timeTag := none }

/-- A container with source and date but no title-bearing element. -/
def wBoxNoTitle : Box :=
  { selHeadline := none
    selAHasHeadline := none
    selNewsTitA := none
    findNewsTitA := none
    anchors := [⟨"short", "http://e.com/x"⟩]
    pressSel := some "Press"
    aInfoPress := none
    aInfoGroupA := none
    classKeywordElem := none
    infoSpans := ["2024.3.7"]
    sdsSpans := []
    timeTag := none }

/-- A container with a title but only a whitespace link. -/
def wBoxBlankLink : Box :=
  { selHeadline := some "여의시스템 타이틀"
    selAHasHeadline := some ⟨none, "   "⟩
    selNewsTitA := none
    findNewsTitA := none
    anchors := []
    pressSel := none
    aInfoPress := none
    aInfoGroupA := none
    classKeywordElem := none
    infoSpans := []
    sdsSpans := []
    timeTag := none }

/-- A single-container document fixture. -/
def wDocGood : Doc := ⟨[wBoxGood], []⟩

/-- A submitted form whose start date is after its end date. -/
def wBadForm : FormInput := ⟨"q", ⟨2024, 5, 1⟩, ⟨2024, 4, 1⟩, 2, 5, true⟩

/-- The listing URLs of the first `k` page attempts: offsets 1, 11, 21, …
(offset `1 + 10 * i` for the `i`-th attempt). -/
def urlsUpTo (cfg : CrawlCfg) (k : Nat) : List String :=
  (List.range k).map (fun i => urlAt cfg (1 + 10 * i))

/-- Fail-soft outcome of a page attempt that terminates the crawl without
touching the accumulated data: every accumulator and the seen set and the
diagnostic file are unchanged, exactly one request (to `url`) was added, and
exactly the request line plus one failure line were logged. -/
def failSoftConcl (s res : CrawlState) (url lastLog : String) : Prop :=
  res.titles = s.titles ∧ res.dates = s.dates ∧ res.sources = s.sources ∧
  res.links = s.links ∧ res.seen = s.seen ∧ res.debugFile = s.debugFile ∧
  res.requests = s.requests ++ [url] ∧ res.logs = s.logs ++ [reqLog url, lastLog]

/-! ## Lemmas about the admission loop -/

theorem admitRows_pres (rows : List Row) : ∀ (s : CrawlState) (c : Nat),
    (admitRows rows s c).1.requests = s.requests ∧
    (admitRows rows s c).1.start = s.start ∧
    (admitRows rows s c).1.pageCount = s.pageCount ∧
    (admitRows rows s c).1.debugFile = s.debugFile ∧
    (admitRows rows s c).1.logs = s.logs := by
  induction rows with
  | nil => intro s c; exact ⟨rfl, rfl, rfl, rfl, rfl⟩
  | cons r rest ih =>
    intro s c
    unfold admitRows
    by_cases h : r.Link = "" ∨ r.Link ∈ s.seen
    · rw [if_pos h]; exact ih s c
    · rw [if_neg h]; exact ih _ _

theorem admitRows_lengths (rows : List Row) : ∀ (s : CrawlState) (c : Nat),
    s.titles.length = s.links.length → s.dates.length = s.links.length →
    s.sources.length = s.links.length →
    (admitRows rows s c).1.titles.length = (admitRows rows s c).1.links.length ∧
    (admitRows rows s c).1.dates.length = (admitRows rows s c).1.links.length ∧
    (admitRows rows s c).1.sources.length = (admitRows rows s c).1.links.length := by
  induction rows with
  | nil => intro s c h1 h2 h3; exact ⟨h1, h2, h3⟩
  | cons r rest ih =>
    intro s c h1 h2 h3
    unfold admitRows
    by_cases h : r.Link = "" ∨ r.Link ∈ s.seen
    · rw [if_pos h]; exact ih s c h1 h2 h3
    · rw [if_neg h]
      exact ih _ _ (by simp [h1]) (by simp [h2]) (by simp [h3])

theorem admitRows_nodup (rows : List Row) : ∀ (s : CrawlState) (c : Nat),
    s.links.Nodup → (∀ l ∈ s.links, l ∈ s.seen) →
    (admitRows rows s c).1.links.Nodup ∧
    (∀ l ∈ (admitRows rows s c).1.links, l ∈ (admitRows rows s c).1.seen) := by
  induction rows with
  | nil => intro s c h1 h2; exact ⟨h1, h2⟩
  | cons r rest ih =>
    intro s c h1 h2
    unfold admitRows
    by_cases h : r.Link = "" ∨ r.Link ∈ s.seen
    · rw [if_pos h]; exact ih s c h1 h2
    · rw [if_neg h]
      push_neg at h
      apply ih
      · simp only [List.nodup_append, List.nodup_cons, List.not_mem_nil,
          not_false_iff, List.nodup_nil, and_true, true_and, h1]
        simp only [List.disjoint_singleton]
        exact fun hmem => h.2 (h2 _ hmem)
      · intro l hl
        rcases List.mem_append.1 hl with hl | hl
        · exact List.mem_cons_of_mem _ (h2 l hl)
        · simp only [List.mem_singleton] at hl
          subst hl
          exact List.mem_cons_self _ _

theorem admitRows_skip (rows : List Row) : ∀ (s : CrawlState) (c : Nat),
    (∀ r ∈ rows, r.Link = "" ∨ r.Link ∈ s.seen) → admitRows rows s c = (s, c) := by
  induction rows with
  | nil => intro s c _; rfl
  | cons r rest ih =>
    intro s c h
    unfold admitRows
    rw [if_pos (h r (List.mem_cons_self _ _))]
    exact ih s c (fun x hx => h x (List.mem_cons_of_mem _ hx))

/-! ## Branch equations of one page attempt -/

theorem crawlIter_exn (fetch : String → FetchResult) (parse : String → List Row)
    (cfg : CrawlCfg) (s1 : CrawlState) (st : Nat) (msg : String)
    (h : fetch (urlAt cfg st) = .exn msg) :
    crawlIter fetch parse cfg s1 st = ({ s1 with logs := s1.logs ++ [exnLog msg] }, false) := by
  unfold crawlIter
  rw [h]

theorem crawlIter_fail (fetch : String → FetchResult) (parse : String → List Row)
    (cfg : CrawlCfg) (s1 : CrawlState) (st : Nat) (status : Nat) (text : String)
    (h : fetch (urlAt cfg st) = .resp status text) (h2 : status ≠ 200) :
    crawlIter fetch parse cfg s1 st = ({ s1 with logs := s1.logs ++ [failLog status st] }, false) := by
  unfold crawlIter
  rw [h]
  simp only [h2, if_true, ne_eq, not_false_eq_true]

theorem crawlIter_norows (fetch : String → FetchResult) (parse : String → List Row)
    (cfg : CrawlCfg) (s1 : CrawlState) (st : Nat) (text : String)
    (h : fetch (urlAt cfg st) = .resp 200 text) (h2 : parse text = []) :
    crawlIter fetch parse cfg s1 st =
      ({ s1 with debugFile := some text, logs := s1.logs ++ [noRowsLog st] }, false) := by
  unfold crawlIter
  rw [h]
  simp [h2]

theorem crawlIter_dup (fetch : String → FetchResult) (parse : String → List Row)
    (cfg : CrawlCfg) (s1 : CrawlState) (st : Nat) (text : String)
    (h : fetch (urlAt cfg st) = .resp 200 text) (hne : parse text ≠ [])
    (hdup : ∀ r ∈ parse text, r.Link = "" ∨ r.Link ∈ s1.seen) :
    crawlIter fetch parse cfg s1 st =
      ({ s1 with
          logs := s1.logs ++ [pageLog st (parse text).length 0, earlyStopLog]
          start := s1.start + 10 }, false) := by
  unfold crawlIter
  rw [h]
  simp [List.isEmpty_iff, hne, admitRows_skip (parse text) s1 0 hdup]

theorem admitRows_requests (rows : List Row) (s : CrawlState) (c : Nat) :
    (admitRows rows s c).1.requests = s.requests :=
  (admitRows_pres rows s c).1

theorem admitRows_start (rows : List Row) (s : CrawlState) (c : Nat) :
    (admitRows rows s c).1.start = s.start :=
  (admitRows_pres rows s c).2.1

theorem admitRows_pageCount (rows : List Row) (s : CrawlState) (c : Nat) :
    (admitRows rows s c).1.pageCount = s.pageCount :=
  (admitRows_pres rows s c).2.2.1

/-! ## Preservation through one page attempt -/

theorem crawlIter_pres (fetch : String → FetchResult) (parse : String → List Row)
    (cfg : CrawlCfg) (s1 : CrawlState) (st : Nat) :
    (crawlIter fetch parse cfg s1 st).1.requests = s1.requests ∧
    (crawlIter fetch parse cfg s1 st).1.pageCount = s1.pageCount ∧
    ((crawlIter fetch parse cfg s1 st).2 = true →
      (crawlIter fetch parse cfg s1 st).1.start = s1.start + 10) := by
  rcases hf : fetch (urlAt cfg st) with msg | ⟨status, text⟩
  · rw [crawlIter_exn fetch parse cfg s1 st msg hf]
    simp
  · by_cases h200 : status = 200
    · subst h200
      rcases hrows : parse text with _ | ⟨r, rest⟩
      · rw [crawlIter_norows fetch parse cfg s1 st text hf hrows]
        simp
      · by_cases hc : (admitRows (r :: rest) s1 0).2 = 0 <;>
          · unfold crawlIter
            rw [hf]
            simp [hrows, hc, admitRows_requests, admitRows_pageCount, admitRows_start]
    · rw [crawlIter_fail fetch parse cfg s1 st status text hf h200]
      simp

theorem crawlIter_lengths (fetch : String → FetchResult) (parse : String → List Row)
    (cfg : CrawlCfg) (s1 : CrawlState) (st : Nat)
    (h1 : s1.titles.length = s1.links.length) (h2 : s1.dates.length = s1.links.length)
    (h3 : s1.sources.length = s1.links.length) :
    (crawlIter fetch parse cfg s1 st).1.titles.length = (crawlIter fetch parse cfg s1 st).1.links.length ∧
    (crawlIter fetch parse cfg s1 st).1.dates.length = (crawlIter fetch parse cfg s1 st).1.links.length ∧
    (crawlIter fetch parse cfg s1 st).1.sources.length = (crawlIter fetch parse cfg s1 st).1.links.length := by
  rcases hf : fetch (urlAt cfg st) with msg | ⟨status, text⟩
  · rw [crawlIter_exn fetch parse cfg s1 st msg hf]
    exact ⟨h1, h2, h3⟩
  · by_cases h200 : status = 200
    · subst h200
      rcases hrows : parse text with _ | ⟨r, rest⟩
      · rw [crawlIter_norows fetch parse cfg s1 st text hf hrows]
        exact ⟨h1, h2, h3⟩
      · have hlen := admitRows_lengths (r :: rest) s1 0 h1 h2 h3
        by_cases hc : (admitRows (r :: rest) s1 0).2 = 0 <;>
          · unfold crawlIter
            rw [hf]
            simp [hrows, hc, hlen.1, hlen.2.1, hlen.2.2]
    · rw [crawlIter_fail fetch parse cfg s1 st status text hf h200]
      exact ⟨h1, h2, h3⟩

theorem crawlIter_nodup (fetch : String → FetchResult) (parse : String → List Row)
    (cfg : CrawlCfg) (s1 : CrawlState) (st : Nat)
    (h1 : s1.links.Nodup) (h2 : ∀ l ∈ s1.links, l ∈ s1.seen) :
    (crawlIter fetch parse cfg s1 st).1.links.Nodup ∧
    (∀ l ∈ (crawlIter fetch parse cfg s1 st).1.links, l ∈ (crawlIter fetch parse cfg s1 st).1.seen) := by
  rcases hf : fetch (urlAt cfg st) with msg | ⟨status, text⟩
  · rw [crawlIter_exn fetch parse cfg s1 st msg hf]
    exact ⟨h1, h2⟩
  · by_cases h200 : status = 200
    · subst h200
      rcases hrows : parse text with _ | ⟨r, rest⟩
      · rw [crawlIter_norows fetch parse cfg s1 st text hf hrows]
        exact ⟨h1, h2⟩
      · have hnd := admitRows_nodup (r :: rest) s1 0 h1 h2
        by_cases hc : (admitRows (r :: rest) s1 0).2 = 0 <;>
          · unfold crawlIter
            rw [hf]
            simp [hrows, hc, hnd.1]
            exact hnd.2
    · rw [crawlIter_fail fetch parse cfg s1 st status text hf h200]
      exact ⟨h1, h2⟩

/-! ## Step equations of the crawl loop -/

theorem crawlLoop_safety (fetch : String → FetchResult) (parse : String → List Row)
    (cfg : CrawlCfg) (fuel : Nat) (s : CrawlState) (h : cfg.max_pages < s.pageCount + 1) :
    crawlLoop fetch parse cfg (fuel + 1) s =
      { s with pageCount := s.pageCount + 1, logs := s.logs ++ [safetyLog cfg.max_pages] } := by
  unfold crawlLoop
  rw [if_pos (by omega)]

theorem crawlLoop_succ (fetch : String → FetchResult) (parse : String → List Row)
    (cfg : CrawlCfg) (fuel : Nat) (s : CrawlState) (h : s.pageCount + 1 ≤ cfg.max_pages) :
    crawlLoop fetch parse cfg (fuel + 1) s =
      (match crawlIter fetch parse cfg (reqState cfg s) s.start with
       | (s2, true) => crawlLoop fetch parse cfg fuel s2
       | (s2, false) => s2) := by
  conv_lhs => unfold crawlLoop
  rw [if_neg (by omega)]

/-! ## Invariants of the crawl loop -/

theorem urlsUpTo_succ (cfg : CrawlCfg) (k : Nat) :
    urlsUpTo cfg (k + 1) = urlsUpTo cfg k ++ [urlAt cfg (1 + 10 * k)] := by
  simp [urlsUpTo, List.range_succ]

theorem crawlLoop_lengths (fetch : String → FetchResult) (parse : String → List Row)
    (cfg : CrawlCfg) : ∀ (fuel : Nat) (s : CrawlState),
    s.titles.length = s.links.length → s.dates.length = s.links.length →
    s.sources.length = s.links.length →
    (crawlLoop fetch parse cfg fuel s).titles.length = (crawlLoop fetch parse cfg fuel s).links.length ∧
    (crawlLoop fetch parse cfg fuel s).dates.length = (crawlLoop fetch parse cfg fuel s).links.length ∧
    (crawlLoop fetch parse cfg fuel s).sources.length = (crawlLoop fetch parse cfg fuel s).links.length := by
  intro fuel
  induction fuel with
  | zero => intro s h1 h2 h3; exact ⟨h1, h2, h3⟩
  | succ fuel ih =>
    intro s h1 h2 h3
    by_cases hpc : s.pageCount + 1 ≤ cfg.max_pages
    · rw [crawlLoop_succ fetch parse cfg fuel s hpc]
      have hl := crawlIter_lengths fetch parse cfg (reqState cfg s) s.start h1 h2 h3
      rcases hit : crawlIter fetch parse cfg (reqState cfg s) s.start with ⟨s2, b⟩
      rw [hit] at hl
      cases b
      · exact hl
      · exact ih s2 hl.1 hl.2.1 hl.2.2
    · rw [crawlLoop_safety fetch parse cfg fuel s (by omega)]
      exact ⟨h1, h2, h3⟩

theorem crawlLoop_nodup (fetch : String → FetchResult) (parse : String → List Row)
    (cfg : CrawlCfg) : ∀ (fuel : Nat) (s : CrawlState),
    s.links.Nodup → (∀ l ∈ s.links, l ∈ s.seen) →
    (crawlLoop fetch parse cfg fuel s).links.Nodup := by
  intro fuel
  induction fuel with
  | zero => intro s h1 _; exact h1
  | succ fuel ih =>
    intro s h1 h2
    by_cases hpc : s.pageCount + 1 ≤ cfg.max_pages
    · rw [crawlLoop_succ fetch parse cfg fuel s hpc]
      have hl := crawlIter_nodup fetch parse cfg (reqState cfg s) s.start h1 h2
      rcases hit : crawlIter fetch parse cfg (reqState cfg s) s.start with ⟨s2, b⟩
      rw [hit] at hl
      cases b
      · exact hl.1
      · exact ih s2 hl.1 hl.2
    · rw [crawlLoop_safety fetch parse cfg fuel s (by omega)]
      exact h1

theorem crawlLoop_req_len (fetch : String → FetchResult) (parse : String → List Row)
    (cfg : CrawlCfg) : ∀ (fuel : Nat) (s : CrawlState),
    (crawlLoop fetch parse cfg fuel s).requests.length ≤
      s.requests.length + (cfg.max_pages - s.pageCount) := by
  intro fuel
  induction fuel with
  | zero =>
    intro s
    show s.requests.length ≤ s.requests.length + (cfg.max_pages - s.pageCount)
    omega
  | succ fuel ih =>
    intro s
    by_cases hpc : s.pageCount + 1 ≤ cfg.max_pages
    · rw [crawlLoop_succ fetch parse cfg fuel s hpc]
      have hp := crawlIter_pres fetch parse cfg (reqState cfg s) s.start
      rcases hit : crawlIter fetch parse cfg (reqState cfg s) s.start with ⟨s2, b⟩
      rw [hit] at hp
      dsimp only at hp
      have hr : s2.requests.length = s.requests.length + 1 := by
        rw [hp.1]; simp [reqState]
      cases b
      · dsimp only
        omega
      · have h2 := ih s2
        have hpcnt : s2.pageCount = s.pageCount + 1 := by rw [hp.2.1]; rfl
        dsimp only
        omega
    · rw [crawlLoop_safety fetch parse cfg fuel s (by omega)]
      simp

theorem crawlLoop_pageCount (fetch : String → FetchResult) (parse : String → List Row)
    (cfg : CrawlCfg) : ∀ (fuel : Nat) (s : CrawlState),
    s.pageCount ≤ cfg.max_pages →
    (crawlLoop fetch parse cfg fuel s).pageCount ≤ cfg.max_pages + 1 := by
  intro fuel
  induction fuel with
  | zero =>
    intro s h
    show s.pageCount ≤ cfg.max_pages + 1
    omega
  | succ fuel ih =>
    intro s h
    by_cases hpc : s.pageCount + 1 ≤ cfg.max_pages
    · rw [crawlLoop_succ fetch parse cfg fuel s hpc]
      have hp := crawlIter_pres fetch parse cfg (reqState cfg s) s.start
      rcases hit : crawlIter fetch parse cfg (reqState cfg s) s.start with ⟨s2, b⟩
      rw [hit] at hp
      dsimp only at hp
      have hpcnt : s2.pageCount = s.pageCount + 1 := by rw [hp.2.1]; rfl
      cases b
      · dsimp only
        omega
      · exact ih s2 (by omega)
    · rw [crawlLoop_safety fetch parse cfg fuel s (by omega)]
      dsimp only
      omega

theorem crawlLoop_pattern (fetch : String → FetchResult) (parse : String → List Row)
    (cfg : CrawlCfg) : ∀ (fuel : Nat) (s : CrawlState) (k : Nat),
    s.requests = urlsUpTo cfg k → s.start = 1 + 10 * k →
    ∃ k2, (crawlLoop fetch parse cfg fuel s).requests = urlsUpTo cfg k2 := by
  intro fuel
  induction fuel with
  | zero => intro s k hreq _; exact ⟨k, hreq⟩
  | succ fuel ih =>
    intro s k hreq hst
    by_cases hpc : s.pageCount + 1 ≤ cfg.max_pages
    · rw [crawlLoop_succ fetch parse cfg fuel s hpc]
      have hp := crawlIter_pres fetch parse cfg (reqState cfg s) s.start
      rcases hit : crawlIter fetch parse cfg (reqState cfg s) s.start with ⟨s2, b⟩
      rw [hit] at hp
      dsimp only at hp
      have hr : s2.requests = urlsUpTo cfg (k + 1) := by
        rw [hp.1]
        show s.requests ++ [urlAt cfg s.start] = urlsUpTo cfg (k + 1)
        rw [hreq, hst, urlsUpTo_succ]
      cases b
      · exact ⟨k + 1, hr⟩
      · have hst2 : s2.start = 1 + 10 * (k + 1) := by
          have := hp.2.2 rfl
          rw [this]
          show s.start + 10 = 1 + 10 * (k + 1)
          omega
        exact ih s2 (k + 1) hr hst2
    · rw [crawlLoop_safety fetch parse cfg fuel s (by omega)]
      exact ⟨k, hreq⟩

/-! ## Claim theorems -/

/-- Claim C1: in every crawl the accumulated links are pairwise distinct —
a link already in the seen set is never admitted again — and a page whose
extracted records are all duplicates (nonempty extraction, zero newly
admitted records) terminates the crawl: its iteration leaves the
accumulated links unchanged and issues the last request. -/
theorem claim_C1 (fetch : String → FetchResult) (parse : String → List Row) (cfg : CrawlCfg) :
    (crawl fetch parse cfg).links.Nodup ∧
    (∀ (fuel : Nat) (s : CrawlState) (text : String),
      s.pageCount + 1 ≤ cfg.max_pages →
      fetch (urlAt cfg s.start) = .resp 200 text →
      parse text ≠ [] →
      (∀ r ∈ parse text, r.Link = "" ∨ r.Link ∈ s.seen) →
      (crawlLoop fetch parse cfg (fuel + 1) s).links = s.links ∧
      (crawlLoop fetch parse cfg (fuel + 1) s).requests = s.requests ++ [urlAt cfg s.start]) := by
  constructor
  · exact crawlLoop_nodup fetch parse cfg (cfg.max_pages + 1) initState
      (by simp [initState]) (by simp [initState])
  · intro fuel s text hpc hf hne hdup
    rw [crawlLoop_succ fetch parse cfg fuel s hpc]
    rw [crawlIter_dup fetch parse cfg (reqState cfg s) s.start text hf hne hdup]
    exact ⟨rfl, rfl⟩

/-- Claim C1 witness: with a transport always answering the same single
record whose link the state has already seen, the duplicate page admits
nothing and its request is the last one. -/
theorem claim_C1_witness :
    (crawlLoop wFetchOk wParseDup wCfg 3 wStateSeen).links = [] ∧
    (crawlLoop wFetchOk wParseDup wCfg 3 wStateSeen).requests = [urlAt wCfg 1] := by
  have h := (claim_C1 wFetchOk wParseDup wCfg).2 2 wStateSeen "body"
    (by decide) rfl (by decide) (by decide)
  exact ⟨h.1, by simpa [wStateSeen] using h.2⟩

/-- Claim C4: the page counter is incremented once per attempt and checked
before the request is issued, so a crawl with configured maximum `M ≥ 1`
issues at most `M` listing requests, and the final page counter is at most
`M + 1`. -/
theorem claim_C4 (fetch : String → FetchResult) (parse : String → List Row)
    (cfg : CrawlCfg) (_hM : 1 ≤ cfg.max_pages) :
    (crawl fetch parse cfg).requests.length ≤ cfg.max_pages ∧
    (crawl fetch parse cfg).pageCount ≤ cfg.max_pages + 1 := by
  constructor
  · have h := crawlLoop_req_len fetch parse cfg (cfg.max_pages + 1) initState
    simpa [initState] using h
  · exact crawlLoop_pageCount fetch parse cfg (cfg.max_pages + 1) initState
      (by simp [initState])

/-- Claim C4 witness: the bound instantiated on a concrete crawl. -/
theorem claim_C4_witness :
    (crawl wFetchOk wParseDup wCfg).requests.length ≤ wCfg.max_pages ∧
    (crawl wFetchOk wParseDup wCfg).pageCount ≤ wCfg.max_pages + 1 :=
  claim_C4 wFetchOk wParseDup wCfg (by decide)

/-- Claim C5: the issued listing requests of any crawl are exactly the URLs
at offsets 1, 11, 21, …: for some `k`, the request list is the URL at offset
`1 + 10 * i` for `i = 0, …, k - 1`, regardless of what each page's
extraction yields. -/
theorem claim_C5 (fetch : String → FetchResult) (parse : String → List Row) (cfg : CrawlCfg) :
    ∃ k, (crawl fetch parse cfg).requests =
      (List.range k).map (fun i => urlAt cfg (1 + 10 * i)) := by
  obtain ⟨k, hk⟩ := crawlLoop_pattern fetch parse cfg (cfg.max_pages + 1) initState 0
    (by simp [urlsUpTo, initState]) (by simp [initState])
  exact ⟨k, by simpa [urlsUpTo] using hk⟩

/-- Claim C6: when the transport raises or the response status is not 200,
the crawl terminates with every accumulator unchanged by the failing page
(atomicity), one request recorded, and the failure reported to the log sink;
no exception escapes (the embedding is total). -/
theorem claim_C6 (fetch : String → FetchResult) (parse : String → List Row)
    (cfg : CrawlCfg) (fuel : Nat) (s : CrawlState)
    (hpc : s.pageCount + 1 ≤ cfg.max_pages) :
    (∀ msg, fetch (urlAt cfg s.start) = .exn msg →
      failSoftConcl s (crawlLoop fetch parse cfg (fuel + 1) s) (urlAt cfg s.start) (exnLog msg)) ∧
    (∀ status text, fetch (urlAt cfg s.start) = .resp status text → status ≠ 200 →
      failSoftConcl s (crawlLoop fetch parse cfg (fuel + 1) s) (urlAt cfg s.start)
        (failLog status s.start)) := by
  constructor
  · intro msg hf
    rw [crawlLoop_succ fetch parse cfg fuel s hpc]
    rw [crawlIter_exn fetch parse cfg (reqState cfg s) s.start msg hf]
    refine ⟨rfl, rfl, rfl, rfl, rfl, rfl, rfl, ?_⟩
    simp [reqState]
  · intro status text hf h200
    rw [crawlLoop_succ fetch parse cfg fuel s hpc]
    rw [crawlIter_fail fetch parse cfg (reqState cfg s) s.start status text hf h200]
    refine ⟨rfl, rfl, rfl, rfl, rfl, rfl, rfl, ?_⟩
    simp [reqState]

/-- Claim C6 witness: a raising transport and a 500 transport, each on the
first page of a fresh crawl. -/
theorem claim_C6_witness :
    failSoftConcl initState (crawlLoop wFetchExn wParseDup wCfg 1 initState)
      (urlAt wCfg 1) (exnLog "boom") ∧
    failSoftConcl initState (crawlLoop wFetch500 wParseDup wCfg 1 initState)
      (urlAt wCfg 1) (failLog 500 1) := by
  constructor
  · exact (claim_C6 wFetchExn wParseDup wCfg 0 initState (by decide)).1 "boom" rfl
  · exact (claim_C6 wFetch500 wParseDup wCfg 0 initState (by decide)).2 500 "x" rfl (by decide)

/-- Claim C8: a page with zero extracted containers writes the raw response
body to the diagnostic file — replacing whatever the file held before, not
appending — and terminates the crawl with the accumulators untouched; in
particular a single-page crawl with zero containers ends with empty
accumulators, the artifact written, and exactly one request. -/
theorem claim_C8 :
    (∀ (fetch : String → FetchResult) (parse : String → List Row) (cfg : CrawlCfg)
        (fuel : Nat) (s : CrawlState) (text : String),
      s.pageCount + 1 ≤ cfg.max_pages →
      fetch (urlAt cfg s.start) = .resp 200 text →
      parse text = [] →
      (crawlLoop fetch parse cfg (fuel + 1) s).debugFile = some text ∧
      (crawlLoop fetch parse cfg (fuel + 1) s).titles = s.titles ∧
      (crawlLoop fetch parse cfg (fuel + 1) s).dates = s.dates ∧
      (crawlLoop fetch parse cfg (fuel + 1) s).sources = s.sources ∧
      (crawlLoop fetch parse cfg (fuel + 1) s).links = s.links ∧
      (crawlLoop fetch parse cfg (fuel + 1) s).requests = s.requests ++ [urlAt cfg s.start] ∧
      (crawlLoop fetch parse cfg (fuel + 1) s).logs =
        s.logs ++ [reqLog (urlAt cfg s.start), noRowsLog s.start]) ∧
    (∀ (fetch : String → FetchResult) (parse : String → List Row) (cfg : CrawlCfg)
        (text : String),
      1 ≤ cfg.max_pages →
      fetch (urlAt cfg 1) = .resp 200 text →
      parse text = [] →
      (crawl fetch parse cfg).titles = [] ∧
      (crawl fetch parse cfg).dates = [] ∧
      (crawl fetch parse cfg).sources = [] ∧
      (crawl fetch parse cfg).links = [] ∧
      (crawl fetch parse cfg).debugFile = some text ∧
      (crawl fetch parse cfg).requests = [urlAt cfg 1]) := by
  have key : ∀ (fetch : String → FetchResult) (parse : String → List Row) (cfg : CrawlCfg)
      (fuel : Nat) (s : CrawlState) (text : String),
      s.pageCount + 1 ≤ cfg.max_pages →
      fetch (urlAt cfg s.start) = .resp 200 text →
      parse text = [] →
      (crawlLoop fetch parse cfg (fuel + 1) s).debugFile = some text ∧
      (crawlLoop fetch parse cfg (fuel + 1) s).titles = s.titles ∧
      (crawlLoop fetch parse cfg (fuel + 1) s).dates = s.dates ∧
      (crawlLoop fetch parse cfg (fuel + 1) s).sources = s.sources ∧
      (crawlLoop fetch parse cfg (fuel + 1) s).links = s.links ∧
      (crawlLoop fetch parse cfg (fuel + 1) s).requests = s.requests ++ [urlAt cfg s.start] ∧
      (crawlLoop fetch parse cfg (fuel + 1) s).logs =
        s.logs ++ [reqLog (urlAt cfg s.start), noRowsLog s.start] := by
    intro fetch parse cfg fuel s text hpc hf hrows
    rw [crawlLoop_succ fetch parse cfg fuel s hpc]
    rw [crawlIter_norows fetch parse cfg (reqState cfg s) s.start text hf hrows]
    refine ⟨rfl, rfl, rfl, rfl, rfl, rfl, ?_⟩
    simp [reqState]
  refine ⟨key, ?_⟩
  intro fetch parse cfg text hM hf hrows
  have h := key fetch parse cfg cfg.max_pages initState text
    (by simpa [initState] using hM) hf hrows
  exact ⟨h.2.1, h.2.2.1, h.2.2.2.1, h.2.2.2.2.1, h.1, by simpa [initState] using h.2.2.2.2.2.1⟩

/-- Claim C8 witness: an always-empty extractor; the diagnostic content of a
state that already had diagnostic content is replaced, and a fresh
single-page crawl ends empty with one request and the artifact written. -/
theorem claim_C8_witness :
    (crawlLoop wFetchOk wParseEmpty wCfg 1 wStateOld).debugFile = some "body" ∧
    (crawl wFetchOk wParseEmpty wCfg).links = [] ∧
    (crawl wFetchOk wParseEmpty wCfg).debugFile = some "body" ∧
    (crawl wFetchOk wParseEmpty wCfg).requests = [urlAt wCfg 1] := by
  have h1 := claim_C8.1 wFetchOk wParseEmpty wCfg 0 wStateOld "body" (by decide) rfl rfl
  have h2 := claim_C8.2 wFetchOk wParseEmpty wCfg "body" (by decide) rfl rfl
  exact ⟨h1.1, h2.2.2.2.1, h2.2.2.2.2.1, h2.2.2.2.2.2⟩

/-- Claim C10: the four parallel result sequences of a crawl always have
equal lengths — each admitted record appends exactly one element to each. -/
theorem claim_C10 (fetch : String → FetchResult) (parse : String → List Row) (cfg : CrawlCfg) :
    (crawl fetch parse cfg).titles.length = (crawl fetch parse cfg).links.length ∧
    (crawl fetch parse cfg).dates.length = (crawl fetch parse cfg).links.length ∧
    (crawl fetch parse cfg).sources.length = (crawl fetch parse cfg).links.length :=
  crawlLoop_lengths fetch parse cfg (cfg.max_pages + 1) initState rfl rfl rfl

/-- Claim C7: a submitted query whose start date is after its end date is
rejected at the form boundary before any listing request is issued: the run
produces the configuration-error outcome and an empty request list. -/
theorem claim_C7 (fetch : String → FetchResult) (parse : String → List Row)
    (fi : FormInput) (h : pyDateLt fi.end_date fi.start_date = true) :
    outcomeRequests (streamlit_main fetch parse fi) = [] ∧
    (fi.submitted = true → streamlit_main fetch parse fi = .configError) := by
  unfold streamlit_main
  by_cases hs : fi.submitted
  · simp [hs, h, outcomeRequests]
  · simp [hs, outcomeRequests]

/-- Claim C7 witness: a concrete submitted form with start 2024-05-01 and
end 2024-04-01 runs no request. -/
theorem claim_C7_witness :
    outcomeRequests (streamlit_main wFetchOk wParseDup wBadForm) = [] ∧
    streamlit_main wFetchOk wParseDup wBadForm = .configError := by
  have h := claim_C7 wFetchOk wParseDup wBadForm (by decide)
  exact ⟨h.1, h.2 rfl⟩

theorem rowOfBox_some (env : ParseEnv) (box : Box) (r : Row)
    (h : rowOfBox env box = some r) : r.Title ≠ "" ∧ r.Link ≠ "" := by
  unfold rowOfBox at h
  by_cases ht : extract_title_from_card box = ""
  · rw [if_pos ht] at h
    exact absurd h (by simp)
  · rw [if_neg ht] at h
    rcases hl : linkHrefOf box with _ | href
    · rw [hl] at h
      simp at h
    · rw [hl] at h
      dsimp only at h
      by_cases hlk : pyStrip href = ""
      · rw [if_pos hlk] at h
        simp at h
      · rw [if_neg hlk] at h
        simp only [Option.some.injEq] at h
        subst h
        exact ⟨ht, hlk⟩

/-- Claim C9: every record produced by the extractor has a non-empty title
and a non-empty link; a container from which the ordered title chain yields
nothing is skipped entirely, and so is a container with no resolvable
non-empty link. -/
theorem claim_C9 (env : ParseEnv) :
    (∀ (doc : Doc) (r : Row), r ∈ parse_page env doc → r.Title ≠ "" ∧ r.Link ≠ "") ∧
    (∀ box : Box, extract_title_from_card box = "" → rowOfBox env box = none) ∧
    (∀ box : Box,
      (linkHrefOf box = none ∨ ∃ h, linkHrefOf box = some h ∧ pyStrip h = "") →
      rowOfBox env box = none) := by
  refine ⟨?_, ?_, ?_⟩
  · intro doc r hr
    unfold parse_page at hr
    rcases List.mem_filterMap.1 hr with ⟨b, _, hb⟩
    exact rowOfBox_some env b r hb
  · intro box ht
    simp [rowOfBox, ht]
  · intro box hl
    rcases hl with hl | ⟨href, hl, hs⟩
    · simp [rowOfBox, hl]
    · simp [rowOfBox, hl, hs]

/-- Claim C9 witness: a full container yields a record with non-empty title
and link; a container with source and date but no title-bearing element is
dropped, as is a container whose only link is whitespace. -/
theorem claim_C9_witness :
    ((⟨"Naver 여의시스템 보도", "2024.3.7", "Press",
        "http://www.example.com/news/20240307x"⟩ : Row).Title ≠ "" ∧
     (⟨"Naver 여의시스템 보도", "2024.3.7", "Press",
        "http://www.example.com/news/20240307x"⟩ : Row).Link ≠ "") ∧
    rowOfBox wEnv wBoxNoTitle = none ∧
    rowOfBox wEnv wBoxBlankLink = none := by
  refine ⟨?_, ?_, ?_⟩
  · exact (claim_C9 wEnv).1 wDocGood _ (by decide)
  · exact (claim_C9 wEnv).2.1 wBoxNoTitle (by decide)
  · exact (claim_C9 wEnv).2.2 wBoxBlankLink (Or.inr ⟨"   ", by decide, by decide⟩)

/-! ## Soundness of the embedded matchers -/

theorem reSearch_suffix {α : Type} (tryAt : List Char → Option α) :
    ∀ (l : List Char) (r : α), reSearch tryAt l = some r →
    ∃ l2, l2 <:+ l ∧ tryAt l2 = some r := by
  intro l
  induction l with
  | nil => intro r h; exact ⟨[], List.suffix_rfl, h⟩
  | cons c cs ih =>
    intro r h
    unfold reSearch at h
    rcases ht : tryAt (c :: cs) with _ | r2
    · rw [ht] at h
      obtain ⟨l2, hs, h2⟩ := ih r h
      exact ⟨l2, hs.trans (List.suffix_cons c cs), h2⟩
    · rw [ht] at h
      exact ⟨c :: cs, List.suffix_rfl, ht.trans h⟩

theorem hasSeg_of_suffix (pat : List Char) :
    ∀ (l l2 : List Char), l2 <:+ l → leadsWith pat l2 = true → hasSeg pat l = true := by
  intro l
  induction l with
  | nil =>
    intro l2 hs hl
    rw [List.suffix_nil] at hs
    subst hs
    exact hl
  | cons c cs ih =>
    intro l2 hs hl
    rcases List.suffix_cons_iff.1 hs with h | h
    · subst h
      unfold hasSeg
      simp [hl]
    · unfold hasSeg
      simp [ih l2 h hl]

theorem ymd8SlashTry_leads (l : List Char) (y mo d : String)
    (h : ymd8SlashTry l = some (y, mo, d)) :
    leadsWith ("/" ++ y ++ mo ++ d ++ "/").data l = true := by
  unfold ymd8SlashTry at h
  split at h
  next a b c d2 e f rest =>
    split_ifs at h with hd
    · simp only [Option.some.injEq, Prod.mk.injEq] at h
      obtain ⟨hy, hmo, hd2⟩ := h
      subst hy
      subst hmo
      subst hd2
      simp [leadsWith]
  next => exact absurd h (by simp)

theorem ymd8Try_leads (l : List Char) (y mo d : String)
    (h : ymd8Try l = some (y, mo, d)) :
    leadsWith ("/" ++ y ++ mo ++ d).data l = true := by
  unfold ymd8Try at h
  split at h
  next a b c d2 e f rest =>
    split_ifs at h with hd
    · simp only [Option.some.injEq, Prod.mk.injEq] at h
      obtain ⟨hy, hmo, hd2⟩ := h
      subst hy
      subst hmo
      subst hd2
      simp [leadsWith]
  next => exact absurd h (by simp)

theorem takeWhile_append_all (p : Char → Bool) :
    ∀ (ds rest : List Char), (∀ c ∈ ds, p c = true) →
    (∀ r rs, rest = r :: rs → p r = false) →
    (ds ++ rest).takeWhile p = ds ∧ (ds ++ rest).dropWhile p = rest := by
  intro ds
  induction ds with
  | nil =>
    intro rest _ hrest
    constructor
    · cases rest with
      | nil => rfl
      | cons r rs => simp [List.takeWhile_cons, hrest r rs rfl]
    · cases rest with
      | nil => rfl
      | cons r rs => simp [List.dropWhile_cons, hrest r rs rfl]
  | cons d ds ih =>
    intro rest hds hrest
    have hd := hds d (List.mem_cons_self _ _)
    have hih := ih rest (fun c hc => hds c (List.mem_cons_of_mem _ hc)) hrest
    constructor
    · simp [List.takeWhile_cons, hd, hih.1]
    · simp [List.dropWhile_cons, hd, hih.2]

theorem digit_not_space (c : Char) (h : c.isDigit = true) : isPySpace c = false := by
  by_contra hsp
  rw [Bool.not_eq_false] at hsp
  unfold isPySpace at hsp
  simp only [Bool.or_eq_true, beq_iff_eq] at hsp
  rcases hsp with ((((h1 | h1) | h1) | h1) | h1) | h1 <;>
    · subst h1
      exact absurd h (by decide)

theorem relTryAt_canonical (ds : List Char) (u : RelUnit) (hne : ds ≠ [])
    (hdig : ∀ c ∈ ds, c.isDigit = true) :
    relTryAt (ds ++ ((unitToken u).data ++ ' ' :: '전' :: [])) =
      some (digitsToNat ds, u) := by
  have hni : ds.isEmpty = false := by simp [List.isEmpty_iff, hne]
  cases u with
  | minute =>
    have ht := takeWhile_append_all Char.isDigit ds ('분' :: ' ' :: '전' :: []) hdig
      (by intro r rs hr; injection hr with h1 _; subst h1; decide)
    unfold relTryAt
    dsimp only
    rw [show ((unitToken RelUnit.minute).data ++ ' ' :: '전' :: []) = ('분' :: ' ' :: '전' :: []) from rfl,
      ht.1, ht.2, hni]
    rfl
  | hour =>
    have ht := takeWhile_append_all Char.isDigit ds ('시' :: '간' :: ' ' :: '전' :: []) hdig
      (by intro r rs hr; injection hr with h1 _; subst h1; decide)
    unfold relTryAt
    dsimp only
    rw [show ((unitToken RelUnit.hour).data ++ ' ' :: '전' :: []) = ('시' :: '간' :: ' ' :: '전' :: []) from rfl,
      ht.1, ht.2, hni]
    rfl
  | day =>
    have ht := takeWhile_append_all Char.isDigit ds ('일' :: ' ' :: '전' :: []) hdig
      (by intro r rs hr; injection hr with h1 _; subst h1; decide)
    unfold relTryAt
    dsimp only
    rw [show ((unitToken RelUnit.day).data ++ ' ' :: '전' :: []) = ('일' :: ' ' :: '전' :: []) from rfl,
      ht.1, ht.2, hni]
    rfl

theorem relSearch_canonical (ds : List Char) (u : RelUnit) (hne : ds ≠ [])
    (hdig : ∀ c ∈ ds, c.isDigit = true) :
    relSearch (String.mk (ds ++ ((unitToken u).data ++ ' ' :: '전' :: []))) =
      some (digitsToNat ds, u) := by
  have h := relTryAt_canonical ds u hne hdig
  cases ds with
  | nil => exact absurd rfl hne
  | cons d0 dtail =>
    rw [List.cons_append] at h
    show relSearchL (d0 :: (dtail ++ ((unitToken u).data ++ ' ' :: '전' :: []))) = _
    unfold relSearchL
    rw [h]

theorem pyStrip_eq_of_ends (l : List Char)
    (h1 : ∀ c cs, l = c :: cs → isPySpace c = false)
    (h2 : ∀ c cs, l.reverse = c :: cs → isPySpace c = false) :
    pyStrip (String.mk l) = String.mk l := by
  unfold pyStrip
  have e1 : l.dropWhile isPySpace = l := by
    cases hc : l with
    | nil => rfl
    | cons c cs => simp [List.dropWhile_cons, h1 c cs hc]
  have e2 : l.reverse.dropWhile isPySpace = l.reverse := by
    cases hc : l.reverse with
    | nil => rfl
    | cons c cs => simp [List.dropWhile_cons, h2 c cs hc]
  show String.mk (((String.mk l).data.dropWhile isPySpace).reverse.dropWhile isPySpace).reverse = _
  rw [show (String.mk l).data = l from rfl, e1, e2, List.reverse_reverse]

theorem pyStrip_canonical (ds : List Char) (u : RelUnit) (hne : ds ≠ [])
    (hdig : ∀ c ∈ ds, c.isDigit = true) :
    pyStrip (String.mk (ds ++ ((unitToken u).data ++ ' ' :: '전' :: []))) =
      String.mk (ds ++ ((unitToken u).data ++ ' ' :: '전' :: [])) := by
  apply pyStrip_eq_of_ends
  · intro c cs hc
    cases ds with
    | nil => exact absurd rfl hne
    | cons d0 dtail =>
      rw [List.cons_append] at hc
      injection hc with hh _
      rw [← hh]
      exact digit_not_space d0 (hdig d0 (List.mem_cons_self _ _))
  · intro c cs hc
    have hrev : (ds ++ ((unitToken u).data ++ ' ' :: '전' :: [])).reverse =
        '전' :: (' ' :: ((unitToken u).data.reverse ++ ds.reverse)) := by
      cases u <;> simp [unitToken, List.reverse_append]
    rw [hrev] at hc
    injection hc with hh _
    rw [← hh]
    decide

/-- Claim C2: for text whose stripped form matches the relative pattern
`N분/시간/일 전`, the normaliser returns `now` minus exactly that many
minutes/hours/days, floored to the day and rendered `YYYY.MM.DD` on the
fixed KST clock (the clock is an explicit KST parameter, so the result
cannot depend on the machine's local zone); text matching none of the
recognised patterns — the relative pattern and the `어제`/`오늘` tokens —
yields the empty string, and the embedding is total (no exception).
Matcher soundness: every canonical phrase `<digits><unit> 전` (non-empty
digit run, unit token `분`/`시간`/`일`) is recognised with exactly the
digit run's value, so the match hypothesis of the first part is realised by
every phrase of the claimed form. -/
theorem claim_C2 (text : String) (now : Int) :
    (∀ (n : Nat) (u : RelUnit), relSearch (pyStrip text) = some (n, u) →
      normalize_relative_date text now =
        fmtYMD (civilFromDays (Int.fdiv (now - relMinutes n u) 1440))) ∧
    (relSearch (pyStrip text) = none →
      strHasSub (pyStrip text) "어제" = false →
      strHasSub (pyStrip text) "오늘" = false →
      normalize_relative_date text now = "") ∧
    (∀ (ds : List Char) (u : RelUnit), ds ≠ [] → (∀ c ∈ ds, c.isDigit = true) →
      normalize_relative_date
          (String.mk (ds ++ ((unitToken u).data ++ ' ' :: '전' :: []))) now =
        fmtYMD (civilFromDays (Int.fdiv (now - relMinutes (digitsToNat ds) u) 1440))) := by
  refine ⟨?_, ?_, ?_⟩
  · intro n u h
    unfold normalize_relative_date
    dsimp only
    rw [h]
    rfl
  · intro h h1 h2
    simp [normalize_relative_date, h, h1, h2]
  · intro ds u hne hdig
    unfold normalize_relative_date
    dsimp only
    rw [pyStrip_canonical ds u hne hdig, relSearch_canonical ds u hne hdig]
    rfl

/-- Claim C2 witness: `45분 전` at a concrete KST instant, and a
non-matching text. -/
theorem claim_C2_witness :
    normalize_relative_date "45분 전" 28496880 =
      fmtYMD (civilFromDays (Int.fdiv (28496880 - relMinutes 45 RelUnit.minute) 1440)) ∧
    normalize_relative_date "hello" 28496880 = "" ∧
    normalize_relative_date "12시간 전" 28496880 =
      fmtYMD (civilFromDays (Int.fdiv (28496880 - relMinutes 12 RelUnit.hour) 1440)) :=
  ⟨(claim_C2 "45분 전" 28496880).1 45 RelUnit.minute (by decide),
   (claim_C2 "hello" 28496880).2.1 (by decide) (by decide) (by decide),
   (claim_C2 "12시간 전" 28496880).2.2 ['1', '2'] RelUnit.hour (by decide) (by decide)⟩

/-- Claim C3 counterexample: a URL containing the bare digit run `20240307`
with no preceding slash yields the empty string — the third URL shape
requires a preceding `/` (with no trailing slash required), so the claim
fails as stated for bare digit runs. -/
theorem claim_C3_counterexample :
    extract_date_from_url "a20240307b" = "" ∧
    extract_date_from_url "a/20240307b" = "2024.03.07" := by
  exact ⟨rfl, rfl⟩

/-- Claim C3 (amended): the extractor recognises, in priority order,
`/YYYYMMDD/`, `/YYYY/M/D/` (month and day zero-padded to two digits), and a
slash-preceded `YYYYMMDD` digit run without a required trailing slash; when
none of the three matches it returns the empty string; the embedding is
total, so no input raises.  Matcher soundness: a match of the first or
third shape implies the URL literally contains the slash-delimited digit
run (`/YYYYMMDD/`, resp. `/YYYYMMDD`) as a substring. -/
theorem claim_C3 (url : String) :
    (∀ y mo d, reSearch ymd8SlashTry url.data = some (y, mo, d) →
      extract_date_from_url url = y ++ "." ++ mo ++ "." ++ d) ∧
    (reSearch ymd8SlashTry url.data = none →
      ∀ y mo d, reSearch ymdSlashesTry url.data = some (y, mo, d) →
      extract_date_from_url url = y ++ "." ++ pad2n mo ++ "." ++ pad2n d) ∧
    (reSearch ymd8SlashTry url.data = none → reSearch ymdSlashesTry url.data = none →
      ∀ y mo d, reSearch ymd8Try url.data = some (y, mo, d) →
      extract_date_from_url url = y ++ "." ++ mo ++ "." ++ d) ∧
    (reSearch ymd8SlashTry url.data = none → reSearch ymdSlashesTry url.data = none →
      reSearch ymd8Try url.data = none → extract_date_from_url url = "") ∧
    (∀ y mo d, reSearch ymd8SlashTry url.data = some (y, mo, d) →
      strHasSub url ("/" ++ y ++ mo ++ d ++ "/") = true) ∧
    (∀ y mo d, reSearch ymd8Try url.data = some (y, mo, d) →
      strHasSub url ("/" ++ y ++ mo ++ d) = true) := by
  refine ⟨?_, ?_, ?_, ?_, ?_, ?_⟩
  · intro y mo d h
    unfold extract_date_from_url
    rw [h]
  · intro h0 y mo d h
    unfold extract_date_from_url
    rw [h0, h]
  · intro h0 h1 y mo d h
    unfold extract_date_from_url
    rw [h0, h1, h]
  · intro h0 h1 h2
    unfold extract_date_from_url
    rw [h0, h1, h2]
  · intro y mo d h
    obtain ⟨l2, hs, h2⟩ := reSearch_suffix ymd8SlashTry url.data (y, mo, d) h
    exact hasSeg_of_suffix _ url.data l2 hs (ymd8SlashTry_leads l2 y mo d h2)
  · intro y mo d h
    obtain ⟨l2, hs, h2⟩ := reSearch_suffix ymd8Try url.data (y, mo, d) h
    exact hasSeg_of_suffix _ url.data l2 hs (ymd8Try_leads l2 y mo d h2)

/-- Claim C3 witness: the three amended shapes and a no-match URL on
concrete inputs. -/
theorem claim_C3_witness :
    extract_date_from_url "x/20240307/y" = "2024.03.07" ∧
    extract_date_from_url "x/2024/3/7/y" = "2024.03.07" ∧
    extract_date_from_url "q/20240307z" = "2024.03.07" ∧
    extract_date_from_url "nope" = "" ∧
    strHasSub "x/20240307/y" "/20240307/" = true ∧
    strHasSub "q/20240307z" "/20240307" = true := by
  refine ⟨?_, ?_, ?_, ?_, ?_, ?_⟩
  · exact ((claim_C3 "x/20240307/y").1 "2024" "03" "07" (by decide)).trans (by decide)
  · exact ((claim_C3 "x/2024/3/7/y").2.1 (by decide) "2024" 3 7 (by decide)).trans (by decide)
  · exact ((claim_C3 "q/20240307z").2.2.1 (by decide) (by decide) "2024" "03" "07"
      (by decide)).trans (by decide)
  · exact (claim_C3 "nope").2.2.2.1 (by decide) (by decide) (by decide)
  · exact (claim_C3 "x/20240307/y").2.2.2.2.1 "2024" "03" "07" (by decide)
  · exact (claim_C3 "q/20240307z").2.2.2.2.2 "2024" "03" "07" (by decide)

end App
